import Mathlib

/-!
# Random walk over MPI: embedding of `random_walk.cpp`

The program has two roles, selected by the MPI rank: rank 0 is the controller, every other
rank is a walker.  The embedding below follows the source function by function.

* A C++ `int` is a `CInt`: a mathematical integer together with the proof that it lies in
  `[-2^31, 2^31 - 1]`.  Every arithmetic operation of the source on an `int` is the
  mathematical operation followed by the two's-complement reduction `wrap32`: where the
  mathematical result fits an `int` this is the C++ result, and where it does not (signed
  overflow) it is the wrapped value the usual compilers produce.
* What a process does to the outside world is a list of `Event`s, in program order.
* What the outside world gives to a process (rank, world size, wall clock, the C library's
  random generator, `atoi`, the messages delivered to it) is an `Env`.
-/

namespace RandomWalk

/-! ## Machine integers -/

/-- Largest value of a C++ `int`. -/
def INT_MAX : Int := 2147483647

/-- Reduction of a mathematical integer to the 32-bit two's-complement range. -/
def wrap32 (x : Int) : Int := (x + 2147483648) % 4294967296 - 2147483648

/-- A C++ `int`: an integer in the 32-bit two's-complement range. -/
structure CInt where
  val : Int
  lo : -2147483648 ≤ val
  hi : val ≤ 2147483647

namespace CInt

/-- Conversion of a mathematical integer to `int` (reduction modulo `2^32`). -/
def ofInt (x : Int) : CInt :=
  ⟨wrap32 x, by unfold wrap32; omega, by unfold wrap32; omega⟩

instance : Inhabited CInt := ⟨ofInt 0⟩

instance (n : Nat) : OfNat CInt n := ⟨ofInt n⟩

/-- The source's `a + b` on `int`s. -/
instance : Add CInt := ⟨fun a b => ofInt (a.val + b.val)⟩

/-- The source's unary `-a` on an `int`. -/
instance : Neg CInt := ⟨fun a => ofInt (-a.val)⟩

/-- The source's `a - b` on `int`s. -/
instance : Sub CInt := ⟨fun a b => ofInt (a.val - b.val)⟩

instance : LT CInt := ⟨fun a b => a.val < b.val⟩

instance (a b : CInt) : Decidable (a < b) := inferInstanceAs (Decidable (a.val < b.val))

instance : DecidableEq CInt := fun a b =>
  if h : a.val = b.val then isTrue (by cases a; cases b; simp_all)
  else isFalse (fun e => h (by rw [e]))

end CInt

/-! ## Events and environment -/

/-- One observable action of a process, in program order. -/
inductive Event where
  | mpi_init : Event
  | mpi_finalize : Event
  | stderr (text : String) : Event
  | stdout (text : String) : Event
  | send (payload : CInt) (dest : Int) (tag : Int) : Event
  | recv (payload : CInt) (source : Int) (tag : Int) : Event
  deriving DecidableEq

namespace Event

def isSend : Event → Bool
  | send _ _ _ => true
  | _ => false

def isRecv : Event → Bool
  | recv _ _ _ => true
  | _ => false

def isStdout : Event → Bool
  | stdout _ => true
  | _ => false

def isStderr : Event → Bool
  | stderr _ => true
  | _ => false

end Event

/-- A message as delivered to the controller: its integer payload and the rank it came from. -/
structure Msg where
  payload : CInt
  source : Int

/-- The globals of the source file, as set by `main` before the role functions run. -/
structure Globals where
  domain_size : CInt
  max_steps : CInt
  world_rank : CInt
  world_size : CInt

/-- Everything a process obtains from outside the program.
`libc_rand seed i` is the value of the `i`-th call of `rand()` after `srand(seed)` (a value in
`[0, RAND_MAX]`, hence a natural number); `now` is the value of `time(NULL)`;
`inbox i` is the `i`-th message the runtime delivers to this process (every blocking receive
is taken to be served, and every blocking send to be accepted). -/
structure Env where
  world_size : CInt
  world_rank : CInt
  now : Int
  libc_rand : Nat → Nat → Nat
  atoi : String → CInt
  inbox : Nat → Msg

/-! ## `walker_process` -/

/-- The argument of `srand`: `time(NULL) + world_rank`, converted to `unsigned int`, that is
reduced modulo `2^32` (the sum is formed in `time_t`, whose width is a multiple of 32 bits, so
the reduction of the mathematical sum is the value passed). -/
def srand_seed (now : Int) (world_rank : CInt) : Nat :=
  ((now + world_rank.val) % 4294967296).toNat

/-- The local variables of `walker_process` while its loop runs; `calls` counts the calls of
`rand()` made so far, that is the number of moves made. -/
structure WalkState where
  position : CInt
  steps : CInt
  calls : Nat

/-- The source's `(rand() % 2 == 0) ? -1 : 1` for the `i`-th call of `rand()`. -/
def move_of (rnd : Nat → Nat) (i : Nat) : CInt :=
  if rnd i % 2 = 0 then -1 else 1

/-- The `for` loop of `walker_process` (lines 63 to 74), entered at the loop test. -/
def walk_loop (domain_size max_steps : CInt) (rnd : Nat → Nat) (s : WalkState) : WalkState :=
  if s.steps < max_steps then
    let move := move_of rnd s.calls
    let position := s.position + move
    if position < -domain_size ∨ position > domain_size then
      { position := position, steps := s.steps, calls := s.calls + 1 }
    else
      walk_loop domain_size max_steps rnd
        { position := position, steps := s.steps + 1, calls := s.calls + 1 }
  else s
termination_by (max_steps.val - s.steps.val).toNat
decreasing_by
  rename_i h _
  have h1 : s.steps.val < max_steps.val := h
  have h2 := max_steps.hi
  have h3 := s.steps.lo
  have h4 : (s.steps + 1).val = s.steps.val + 1 := by
    show wrap32 (s.steps.val + wrap32 1) = _
    unfold wrap32; omega
  show (max_steps.val - (s.steps + 1).val).toNat < (max_steps.val - s.steps.val).toNat
  rw [h4]; omega

/-- The state of `walker_process` when it leaves its loop: `position = 0`, `steps = 0`, then
the loop. -/
def walker_walk (domain_size max_steps : CInt) (rnd : Nat → Nat) : WalkState :=
  walk_loop domain_size max_steps rnd { position := 0, steps := 0, calls := 0 }

/-- The step count a walker reports: the source's `steps + 1`. -/
def reported_steps (s : WalkState) : CInt := s.steps + 1

/-- The line a walker prints. -/
def walker_line (world_rank reported : CInt) : String :=
  "Rank " ++ toString world_rank.val ++ ": Walker finished in " ++ toString reported.val
    ++ " steps.\n"

/-- The source's `walker_process`: seed, walk, print, send to rank 0 with tag 0. -/
def walker_process (g : Globals) (now : Int) (libc_rand : Nat → Nat → Nat) : List Event :=
  let rnd := libc_rand (srand_seed now g.world_rank)
  let s := walker_walk g.domain_size g.max_steps rnd
  let completion_signal := s.steps + 1
  [Event.stdout (walker_line g.world_rank (s.steps + 1)),
   Event.send completion_signal 0 0]

/-! ## `controller_process` -/

/-- The `for` loop of `controller_process` (lines 90 to 97), entered at the loop test;
`k` counts the messages already taken from the inbox. -/
def controller_loop (num_walkers : CInt) (inbox : Nat → Msg) (i : CInt) (k : Nat) :
    List Event :=
  if i < num_walkers then
    Event.recv (inbox k).payload (inbox k).source 0
      :: controller_loop num_walkers inbox (i + 1) (k + 1)
  else []
termination_by (num_walkers.val - i.val).toNat
decreasing_by
  rename_i h
  have h1 : i.val < num_walkers.val := h
  have h2 := num_walkers.hi
  have h3 := i.lo
  have h4 : (i + 1).val = i.val + 1 := by
    show wrap32 (i.val + wrap32 1) = _
    unfold wrap32; omega
  show (num_walkers.val - (i + 1).val).toNat < (num_walkers.val - i.val).toNat
  rw [h4]; omega

/-- The line the controller prints. -/
def controller_line (num_walkers : CInt) : String :=
  "Controller: All " ++ toString num_walkers.val ++ " walkers have finished.\n"

/-- The source's `controller_process`. -/
def controller_process (g : Globals) (inbox : Nat → Msg) : List Event :=
  let num_walkers := g.world_size - 1
  controller_loop num_walkers inbox 0 0 ++ [Event.stdout (controller_line num_walkers)]

/-! ## `main` -/

/-- The usage line of `main`. -/
def usage_line (argv0 : String) : String :=
  "Usage: mpirun -np <p> " ++ argv0 ++ " <domain_size> <max_steps>\n"

/-- The globals as `main` sets them: `world_size` and `world_rank` from the runtime,
`domain_size = atoi(argv[1])` and `max_steps = atoi(argv[2])`, where `args` is the argument
vector without `argv[0]`. -/
def set_globals (env : Env) (args : List String) : Globals :=
  { domain_size := env.atoi (args.getD 0 ""),
    max_steps := env.atoi (args.getD 1 ""),
    world_rank := env.world_rank,
    world_size := env.world_size }

/-- The source's `main`, for a process started as `argv0 args...` (so `argc` is
`1 + args.length`, and `argv[1]`, `argv[2]` are the first two entries of `args`).
Returns the exit status and the events of the process. -/
def main (env : Env) (argv0 : String) (args : List String) : Int × List Event :=
  let argc := 1 + args.length
  if argc ≠ 3 then
    (1, [Event.mpi_init]
          ++ (if env.world_rank = 0 then [Event.stderr (usage_line argv0)] else [])
          ++ [Event.mpi_finalize])
  else
    let g := set_globals env args
    (0, [Event.mpi_init]
          ++ (if g.world_rank = 0 then controller_process g env.inbox
              else walker_process g env.now env.libc_rand)
          ++ [Event.mpi_finalize])

/-! ## A launch of `world_size` processes -/

/-- What the launcher (`mpirun -np p`) and the machine fix for one run: the number of
processes, the clock value each rank reads, the C library, and the messages delivered to
rank 0. -/
structure Launch where
  world_size : CInt
  clock : Nat → Int
  libc_rand : Nat → Nat → Nat
  atoi : String → CInt
  inbox : Nat → Msg

/-- The environment of the process of rank `r` in a launch. -/
def Launch.env (L : Launch) (r : Nat) : Env :=
  { world_size := L.world_size,
    world_rank := CInt.ofInt r,
    now := L.clock r,
    libc_rand := L.libc_rand,
    atoi := L.atoi,
    inbox := L.inbox }

/-- The exit status and events of every process of a launch, by rank `0 .. world_size - 1`. -/
def launch_run (L : Launch) (argv0 : String) (args : List String) : List (Int × List Event) :=
  (List.range L.world_size.val.toNat).map (fun r => main (L.env r) argv0 args)

/-- The number of messages sent in a run, all ranks together. -/
def total_sends (run : List (Int × List Event)) : Nat :=
  (run.map (fun x => x.2.countP Event.isSend)).sum

/-- A launch of four processes, all reading the clock value 1700000000, with a C library whose
`rand()` stream alternates and whose `atoi` reads every string as 2. -/
def example_launch : Launch :=
  { world_size := 4,
    clock := fun _ => 1700000000,
    libc_rand := fun seed i => seed + i,
    atoi := fun _ => 2,
    inbox := fun k => ⟨1, 3 - (k : Int)⟩ }

/-! ## Reference quantities used to state the properties -/

/-- The position after the first `n` moves of the stream, as a mathematical integer
(the sum of the first `n` moves, starting from 0). -/
def position_after (rnd : Nat → Nat) : Nat → Int
  | 0 => 0
  | n + 1 => position_after rnd n + (move_of rnd n).val

/-- The position `p` lies in the closed domain `[-domain_size, domain_size]`. -/
def in_domain (domain_size : CInt) (p : Int) : Prop :=
  -domain_size.val ≤ p ∧ p ≤ domain_size.val

instance (domain_size : CInt) (p : Int) : Decidable (in_domain domain_size p) :=
  inferInstanceAs (Decidable (_ ∧ _))

/-- Situation (a) at the exit of the walker's loop: all `max_steps` iterations ran, and the
position was in the domain at the start and after every move; `r` is the final state. -/
def ran_to_completion (domain_size max_steps : CInt) (rnd : Nat → Nat) (r : WalkState) : Prop :=
  r.steps.val = max_steps.val ∧ (r.calls : Int) = max_steps.val ∧
  (∀ j, j ≤ r.calls → in_domain domain_size (position_after rnd j)) ∧
  r.position.val = position_after rnd r.calls

/-- Situation (b) at the exit of the walker's loop: the loop stopped in iteration `i`
(counted from 0, so `i < max_steps`), whose move, the `i + 1`-th, put the position strictly
outside the domain, and the final position is that position; `r` is the final state. -/
def stopped_outside (domain_size max_steps : CInt) (rnd : Nat → Nat) (r : WalkState) : Prop :=
  ∃ i : Nat, (i : Int) < max_steps.val ∧ r.steps.val = i ∧ r.calls = i + 1 ∧
    ¬ in_domain domain_size (position_after rnd (i + 1)) ∧
    r.position.val = position_after rnd (i + 1)

/-! ## Basic facts on `CInt` -/

theorem wrap32_lo (x : Int) : -2147483648 ≤ wrap32 x := by
  unfold wrap32; omega

theorem wrap32_hi (x : Int) : wrap32 x ≤ 2147483647 := by
  unfold wrap32; omega

theorem wrap32_id (x : Int) (h1 : -2147483648 ≤ x) (h2 : x ≤ 2147483647) : wrap32 x = x := by
  unfold wrap32; omega

theorem CInt.zero_val : (0 : CInt).val = 0 := by decide

theorem CInt.one_val : (1 : CInt).val = 1 := by decide

theorem CInt.neg_one_val : (-1 : CInt).val = -1 := by decide

theorem CInt.add_val (a b : CInt) : (a + b).val = wrap32 (a.val + b.val) := rfl

theorem CInt.sub_val (a b : CInt) : (a - b).val = wrap32 (a.val - b.val) := rfl

theorem CInt.neg_val (a : CInt) : (-a).val = wrap32 (-a.val) := rfl

theorem CInt.lt_def (a b : CInt) : a < b ↔ a.val < b.val := Iff.rfl

theorem CInt.ext_val {a b : CInt} (h : a.val = b.val) : a = b := by
  cases a; cases b; simp_all

theorem move_of_val (rnd : Nat → Nat) (i : Nat) :
    (move_of rnd i).val = 1 ∨ (move_of rnd i).val = -1 := by
  unfold move_of
  split
  · right; exact CInt.neg_one_val
  · left; exact CInt.one_val

theorem position_after_bound (rnd : Nat → Nat) (n : Nat) :
    -(n : Int) ≤ position_after rnd n ∧ position_after rnd n ≤ n := by
  induction n with
  | zero => simp [position_after]
  | succ k ih =>
    have hm := move_of_val rnd k
    simp only [position_after]
    push_cast
    omega

/-! ## The walker's loop -/

theorem CInt.succ_val (a b : CInt) (h : a.val < b.val) : (a + 1).val = a.val + 1 := by
  have h2 := b.hi
  have h3 := a.lo
  rw [CInt.add_val, CInt.one_val]
  exact wrap32_id _ (by omega) (by omega)

theorem CInt.neg_val_of_nonneg (a : CInt) (h : 0 ≤ a.val) : (-a).val = -a.val := by
  have h2 := a.hi
  rw [CInt.neg_val]
  exact wrap32_id _ (by omega) (by omega)

/-- What the loop of `walker_process` establishes when it is entered in a state `s` reached
after `s.calls` moves: either it ends at the loop test, every later position being in the
domain, or it ends at `break`, right after the first move that leaves the domain. -/
theorem walk_loop_spec (d m : CInt) (rnd : Nat → Nat) (hd : 0 ≤ d.val) :
    ∀ (n : Nat) (s : WalkState), (m.val - s.steps.val).toNat = n →
      s.steps.val = s.calls → s.position.val = position_after rnd s.calls →
      (walk_loop d m rnd s).position.val = position_after rnd (walk_loop d m rnd s).calls ∧
      s.calls ≤ (walk_loop d m rnd s).calls ∧
      s.steps.val ≤ (walk_loop d m rnd s).steps.val ∧
      (((walk_loop d m rnd s).steps.val = (walk_loop d m rnd s).calls ∧
          m.val ≤ (walk_loop d m rnd s).steps.val ∧
          (s.steps.val ≤ m.val → (walk_loop d m rnd s).steps.val = m.val) ∧
          ∀ j, s.calls < j → j ≤ (walk_loop d m rnd s).calls →
            in_domain d (position_after rnd j))
        ∨ ((walk_loop d m rnd s).steps.val + 1 = (walk_loop d m rnd s).calls ∧
          (walk_loop d m rnd s).steps.val < m.val ∧
          ¬ in_domain d (position_after rnd (walk_loop d m rnd s).calls) ∧
          ∀ j, s.calls < j → j < (walk_loop d m rnd s).calls →
            in_domain d (position_after rnd j))) := by
  intro n
  induction n with
  | zero =>
    intro s hn hs hp
    have hnot : ¬ s.steps < m := by
      rw [CInt.lt_def]; omega
    rw [walk_loop, if_neg hnot]
    refine ⟨hp, le_refl _, le_refl _, Or.inl ⟨hs, by omega, by omega, ?_⟩⟩
    intro j h1 h2; omega
  | succ k ih =>
    intro s hn hs hp
    have hlt : s.steps < m := by
      rw [CInt.lt_def]; omega
    have hltv : s.steps.val < m.val := hlt
    have hmhi := m.hi
    have hmv := move_of_val rnd s.calls
    have hb := position_after_bound rnd (s.calls + 1)
    have hpos : (s.position + move_of rnd s.calls).val = position_after rnd (s.calls + 1) := by
      rw [CInt.add_val, hp]
      simp only [position_after] at hb ⊢
      push_cast at hb
      exact wrap32_id _ (by omega) (by omega)
    have hneg := CInt.neg_val_of_nonneg d hd
    rw [walk_loop, if_pos hlt]
    simp only []
    by_cases hout : s.position + move_of rnd s.calls < -d ∨ s.position + move_of rnd s.calls > d
    · rw [if_pos hout]
      have hout2 : ¬ in_domain d (position_after rnd (s.calls + 1)) := by
        intro hin
        unfold in_domain at hin
        rcases hout with h | h
        · rw [CInt.lt_def, hpos, hneg] at h; omega
        · have h2 : d.val < (s.position + move_of rnd s.calls).val := h
          rw [hpos] at h2; omega
      refine ⟨hpos, Nat.le_succ _, le_refl _, Or.inr ⟨?_, hltv, hout2, ?_⟩⟩
      · show s.steps.val + 1 = ((s.calls + 1 : Nat) : Int)
        push_cast; omega
      · intro j h1 h2
        have h3 : j < s.calls + 1 := h2
        omega
    · rw [if_neg hout]
      have hin : in_domain d (position_after rnd (s.calls + 1)) := by
        unfold in_domain
        constructor
        · by_contra hc
          apply hout; left
          rw [CInt.lt_def, hpos, hneg]; omega
        · by_contra hc
          apply hout; right
          show d.val < (s.position + move_of rnd s.calls).val
          rw [hpos]; omega
      have hsv := CInt.succ_val s.steps m hltv
      have h := ih { position := s.position + move_of rnd s.calls, steps := s.steps + 1,
                     calls := s.calls + 1 }
        (by show (m.val - (s.steps + 1).val).toNat = k; rw [hsv]; omega)
        (by show (s.steps + 1).val = ((s.calls + 1 : Nat) : Int); rw [hsv]; push_cast; omega)
        hpos
      obtain ⟨r1, r2, r2s, r3⟩ := h
      refine ⟨r1, ?_, ?_, ?_⟩
      · have r2b : s.calls + 1 ≤ _ := r2
        omega
      · have r2c : (s.steps + 1).val ≤ _ := r2s
        rw [hsv] at r2c
        omega
      · have r2b : s.calls + 1 ≤ _ := r2
        rcases r3 with ⟨a1, a2, a3, a4⟩ | ⟨b1, b2, b3, b4⟩
        · left
          refine ⟨a1, a2, ?_, ?_⟩
          · intro _
            apply a3
            show (s.steps + 1).val ≤ m.val
            rw [hsv]; omega
          · intro j h1 h2
            by_cases hj : j = s.calls + 1
            · rw [hj]; exact hin
            · exact a4 j (by show s.calls + 1 < j; omega) h2
        · right
          refine ⟨b1, b2, b3, ?_⟩
          intro j h1 h2
          by_cases hj : j = s.calls + 1
          · rw [hj]; exact hin
          · exact b4 j (by show s.calls + 1 < j; omega) h2

/-- The loop of `walker_process` started from `position = 0`, `steps = 0`: the final position
is the sum of the moves made, and the loop ends either at the loop test (all positions in the
domain) or at `break` (the last move is the first one that leaves the domain). -/
theorem walker_walk_spec (d m : CInt) (rnd : Nat → Nat) (hd : 0 ≤ d.val) :
    (walker_walk d m rnd).position.val = position_after rnd (walker_walk d m rnd).calls ∧
    0 ≤ (walker_walk d m rnd).steps.val ∧
    (((walker_walk d m rnd).steps.val = (walker_walk d m rnd).calls ∧
        m.val ≤ (walker_walk d m rnd).steps.val ∧
        (0 ≤ m.val → (walker_walk d m rnd).steps.val = m.val) ∧
        ∀ j, j ≤ (walker_walk d m rnd).calls → in_domain d (position_after rnd j))
      ∨ ((walker_walk d m rnd).steps.val + 1 = (walker_walk d m rnd).calls ∧
        (walker_walk d m rnd).steps.val < m.val ∧
        ¬ in_domain d (position_after rnd (walker_walk d m rnd).calls) ∧
        ∀ j, j < (walker_walk d m rnd).calls → in_domain d (position_after rnd j))) := by
  have h0 : in_domain d (position_after rnd 0) := by
    unfold in_domain position_after; omega
  have h := walk_loop_spec d m rnd hd _ { position := 0, steps := 0, calls := 0 } rfl
    (by show (0 : CInt).val = ((0 : Nat) : Int); rw [CInt.zero_val]; rfl)
    (by show (0 : CInt).val = position_after rnd 0; rw [CInt.zero_val]; rfl)
  unfold walker_walk
  obtain ⟨r1, _, r2, r3⟩ := h
  have r2b : (0 : CInt).val ≤ _ := r2
  rw [CInt.zero_val] at r2b
  refine ⟨r1, r2b, ?_⟩
  rcases r3 with ⟨a1, a2, a3, a4⟩ | ⟨b1, b2, b3, b4⟩
  · left
    refine ⟨a1, a2, ?_, ?_⟩
    · intro hm
      apply a3
      show (0 : CInt).val ≤ m.val
      rw [CInt.zero_val]; exact hm
    · intro j hj
      rcases Nat.eq_zero_or_pos j with h | h
      · rw [h]; exact h0
      · exact a4 j h hj
  · right
    refine ⟨b1, b2, b3, ?_⟩
    intro j hj
    rcases Nat.eq_zero_or_pos j with h | h
    · rw [h]; exact h0
    · exact b4 j h hj

/-- The reported count is `steps + 1` whenever `steps` is below `INT_MAX`. -/
theorem reported_steps_val (s : WalkState) (h : s.steps.val < 2147483647) :
    (reported_steps s).val = s.steps.val + 1 := by
  have h3 := s.steps.lo
  unfold reported_steps
  rw [CInt.add_val, CInt.one_val]
  exact wrap32_id _ (by omega) (by omega)

/-- At `steps = INT_MAX` the reported count `steps + 1` is `INT_MIN`. -/
theorem reported_steps_wrap (s : WalkState) (h : s.steps.val = 2147483647) :
    (reported_steps s).val = -2147483648 := by
  unfold reported_steps
  rw [CInt.add_val, CInt.one_val, h]
  decide

/-- A walker whose step budget does not exceed the domain bound runs its loop to the end. -/
theorem walker_walk_complete (d m : CInt) (rnd : Nat → Nat) (hm : 0 ≤ m.val)
    (hmd : m.val ≤ d.val) :
    (walker_walk d m rnd).steps.val = m.val ∧
    ((walker_walk d m rnd).calls : Int) = m.val ∧
    ∀ j, j ≤ (walker_walk d m rnd).calls → in_domain d (position_after rnd j) := by
  obtain ⟨_, _, h⟩ := walker_walk_spec d m rnd (by omega)
  rcases h with ⟨a1, a2, a3, a4⟩ | ⟨b1, b2, b3, b4⟩
  · exact ⟨a3 hm, by rw [← a1]; exact a3 hm, a4⟩
  · exfalso
    apply b3
    have hb := position_after_bound rnd (walker_walk d m rnd).calls
    unfold in_domain
    omega

/-- Every sequence of moves from `{-1, +1}` is the move sequence of some `rand()` stream. -/
theorem every_move_sequence (f : Nat → Bool) :
    ∃ rnd : Nat → Nat, ∀ i, (move_of rnd i).val = if f i then 1 else -1 := by
  refine ⟨fun i => if f i then 1 else 0, ?_⟩
  intro i
  unfold move_of
  cases hf : f i
  · simp [hf, CInt.neg_one_val]
  · simp [hf, CInt.one_val]

/-- What `walker_process` does, in terms of the state its loop ends in. -/
theorem walker_process_events (g : Globals) (now : Int) (libc_rand : Nat → Nat → Nat) :
    walker_process g now libc_rand =
      [Event.stdout (walker_line g.world_rank (reported_steps
          (walker_walk g.domain_size g.max_steps (libc_rand (srand_seed now g.world_rank))))),
       Event.send (reported_steps
          (walker_walk g.domain_size g.max_steps (libc_rand (srand_seed now g.world_rank))))
          0 0] := rfl

/-- The walker whose first move out of the domain is its `k`-th move, within the budget,
stops right after that move with `steps = k - 1`. -/
theorem walker_walk_exit (d m : CInt) (rnd : Nat → Nat) (k : Nat) (hd : 0 ≤ d.val)
    (hk1 : 1 ≤ k) (hk2 : (k : Int) ≤ m.val)
    (hout : ¬ in_domain d (position_after rnd k))
    (hin : ∀ j, j < k → in_domain d (position_after rnd j)) :
    (walker_walk d m rnd).calls = k ∧ (walker_walk d m rnd).steps.val + 1 = k ∧
    (walker_walk d m rnd).position.val = position_after rnd k := by
  obtain ⟨hp, _, h⟩ := walker_walk_spec d m rnd hd
  rcases h with ⟨a1, a2, a3, a4⟩ | ⟨b1, b2, b3, b4⟩
  · exfalso
    apply hout
    apply a4
    have := a3 (by omega)
    omega
  · have hc : (walker_walk d m rnd).calls = k := by
      rcases Nat.lt_trichotomy (walker_walk d m rnd).calls k with h | h | h
      · exact absurd (hin _ h) b3
      · exact h
      · exact absurd (b4 _ h) hout
    refine ⟨hc, ?_, ?_⟩
    · rw [b1, hc]
    · rw [hp, hc]

/-! ## The claims on the walker -/

/-- Claim C1, amended: for `domain_size ≥ 0` and `max_steps ≥ 0`, whatever the clock and the
random stream, `walker_process` prints and sends one and the same count, `steps + 1`, and that
count lies in `[1, max_steps + 1]`, provided `max_steps < INT_MAX` or the walker left its loop
by leaving the domain (`steps < max_steps` at the exit). -/
theorem C1_reported_steps_in_range (g : Globals) (now : Int) (libc_rand : Nat → Nat → Nat)
    (hd : 0 ≤ g.domain_size.val) (hm : 0 ≤ g.max_steps.val)
    (hlt : g.max_steps.val < INT_MAX ∨
      (walker_walk g.domain_size g.max_steps (libc_rand (srand_seed now g.world_rank))).steps
        < g.max_steps) :
    walker_process g now libc_rand
      = [Event.stdout (walker_line g.world_rank (reported_steps
            (walker_walk g.domain_size g.max_steps (libc_rand (srand_seed now g.world_rank))))),
         Event.send (reported_steps
            (walker_walk g.domain_size g.max_steps (libc_rand (srand_seed now g.world_rank))))
            0 0] ∧
    1 ≤ (reported_steps
      (walker_walk g.domain_size g.max_steps (libc_rand (srand_seed now g.world_rank)))).val ∧
    (reported_steps
      (walker_walk g.domain_size g.max_steps (libc_rand (srand_seed now g.world_rank)))).val
      ≤ g.max_steps.val + 1 := by
  unfold INT_MAX at hlt
  refine ⟨walker_process_events g now libc_rand, ?_⟩
  revert hlt
  generalize libc_rand (srand_seed now g.world_rank) = rnd
  intro hlt
  have hmhi := g.max_steps.hi
  have hlt2 : g.max_steps.val < 2147483647 ∨
      (walker_walk g.domain_size g.max_steps rnd).steps.val < g.max_steps.val := hlt
  obtain ⟨_, h0, h⟩ := walker_walk_spec g.domain_size g.max_steps rnd hd
  rcases h with ⟨a1, a2, a3, a4⟩ | ⟨b1, b2, b3, b4⟩
  · have h1 := a3 hm
    have h2 := reported_steps_val (walker_walk g.domain_size g.max_steps rnd) (by omega)
    omega
  · have h2 := reported_steps_val (walker_walk g.domain_size g.max_steps rnd) (by omega)
    omega

/-- Witness of C1: `domain_size = 2`, `max_steps = 3`, rank 1 of 2. -/
theorem C1_reported_steps_in_range_witness :
    walker_process { domain_size := 2, max_steps := 3, world_rank := 1, world_size := 2 } 0
        (fun _ _ => 0)
      = [Event.stdout (walker_line 1 (reported_steps
            (walker_walk 2 3 ((fun _ _ => 0 : Nat → Nat → Nat) (srand_seed 0 1))))),
         Event.send (reported_steps
            (walker_walk 2 3 ((fun _ _ => 0 : Nat → Nat → Nat) (srand_seed 0 1)))) 0 0] ∧
    1 ≤ (reported_steps
      (walker_walk 2 3 ((fun _ _ => 0 : Nat → Nat → Nat) (srand_seed 0 1)))).val ∧
    (reported_steps
      (walker_walk 2 3 ((fun _ _ => 0 : Nat → Nat → Nat) (srand_seed 0 1)))).val
      ≤ (3 : CInt).val + 1 :=
  C1_reported_steps_in_range
    { domain_size := 2, max_steps := 3, world_rank := 1, world_size := 2 } 0 (fun _ _ => 0)
    (by decide) (by decide) (Or.inl (by decide))

/-- Claim C1 as stated fails at `max_steps = INT_MAX`: with `domain_size = INT_MAX` (both
`≥ 0`) the walker can never leave the domain, the loop ends with `steps = INT_MAX`, and the
count printed and sent, `steps + 1`, is `-2147483648`, which is not in `[1, max_steps + 1]`. -/
theorem C1_counterexample :
    0 ≤ (CInt.ofInt 2147483647).val ∧
    walker_process
        { domain_size := CInt.ofInt 2147483647, max_steps := CInt.ofInt 2147483647,
          world_rank := 1, world_size := 2 } 0 (fun _ _ => 0)
      = [Event.stdout "Rank 1: Walker finished in -2147483648 steps.\n",
         Event.send (CInt.ofInt (-2147483648)) 0 0] ∧
    ¬ (1 ≤ (CInt.ofInt (-2147483648)).val) := by
  refine ⟨by decide, ?_, by decide⟩
  have h := walker_walk_complete (CInt.ofInt 2147483647) (CInt.ofInt 2147483647)
    ((fun _ _ => 0 : Nat → Nat → Nat) (srand_seed 0 1)) (by decide) (le_refl _)
  have hr := reported_steps_wrap _ h.1
  have hc : reported_steps (walker_walk (CInt.ofInt 2147483647) (CInt.ofInt 2147483647)
      ((fun _ _ => 0 : Nat → Nat → Nat) (srand_seed 0 1))) = CInt.ofInt (-2147483648) :=
    CInt.ext_val (by rw [hr]; decide)
  rw [walker_process_events]
  simp only []
  rw [hc]
  decide

/-- Claim C2: for `domain_size ≥ 0` and `max_steps ≥ 0`, when the walker leaves its loop
exactly one of the two situations holds: the loop ran all `max_steps` iterations with the
position in the domain throughout, or it stopped at an iteration whose move put the position
strictly outside the domain, the final position being that outside position. -/
theorem C2_exit_dichotomy (d m : CInt) (rnd : Nat → Nat) (hd : 0 ≤ d.val) (hm : 0 ≤ m.val) :
    (ran_to_completion d m rnd (walker_walk d m rnd) ∧
        ¬ stopped_outside d m rnd (walker_walk d m rnd))
    ∨ (stopped_outside d m rnd (walker_walk d m rnd) ∧
        ¬ ran_to_completion d m rnd (walker_walk d m rnd)) := by
  obtain ⟨hp, h0, h⟩ := walker_walk_spec d m rnd hd
  rcases h with ⟨a1, a2, a3, a4⟩ | ⟨b1, b2, b3, b4⟩
  · left
    have hs := a3 hm
    refine ⟨⟨hs, by rw [← a1]; exact hs, a4, hp⟩, ?_⟩
    rintro ⟨i, h1, h2, _⟩
    omega
  · right
    constructor
    · refine ⟨((walker_walk d m rnd).steps.val).toNat, ?_, ?_, ?_, ?_, ?_⟩
      · omega
      · omega
      · omega
      · have hc : (walker_walk d m rnd).steps.val.toNat + 1 = (walker_walk d m rnd).calls := by
          omega
        rw [hc]; exact b3
      · have hc : (walker_walk d m rnd).steps.val.toNat + 1 = (walker_walk d m rnd).calls := by
          omega
        rw [hc]; exact hp
    · rintro ⟨h1, _⟩
      omega

/-- Witness of C2: `domain_size = 1`, `max_steps = 4`. -/
theorem C2_exit_dichotomy_witness :
    (ran_to_completion 1 4 (fun _ => 0) (walker_walk 1 4 (fun _ => 0)) ∧
        ¬ stopped_outside 1 4 (fun _ => 0) (walker_walk 1 4 (fun _ => 0)))
    ∨ (stopped_outside 1 4 (fun _ => 0) (walker_walk 1 4 (fun _ => 0)) ∧
        ¬ ran_to_completion 1 4 (fun _ => 0) (walker_walk 1 4 (fun _ => 0))) :=
  C2_exit_dichotomy 1 4 (fun _ => 0) (by decide) (by decide)

/-- Claim C5: with `domain_size = 0`, for every `max_steps` (in particular every
`max_steps ≥ 0`) and every random stream, the walker makes at most one move and reports the
step count 1. -/
theorem C5_zero_domain (d m : CInt) (rnd : Nat → Nat) (hd : d.val = 0) :
    (walker_walk d m rnd).calls ≤ 1 ∧ (reported_steps (walker_walk d m rnd)).val = 1 := by
  obtain ⟨hp, h0, h⟩ := walker_walk_spec d m rnd (by omega)
  have hmhi := m.hi
  have hmv := move_of_val rnd 0
  have hout1 : ¬ in_domain d (position_after rnd 1) := by
    unfold in_domain
    simp only [position_after]
    omega
  have hc : (walker_walk d m rnd).calls ≤ 1 ∧ (walker_walk d m rnd).steps.val = 0 := by
    rcases h with ⟨a1, a2, a3, a4⟩ | ⟨b1, b2, b3, b4⟩
    · by_cases h1 : 1 ≤ (walker_walk d m rnd).calls
      · exact absurd (a4 1 h1) hout1
      · omega
    · by_cases h1 : 1 < (walker_walk d m rnd).calls
      · exact absurd (b4 1 h1) hout1
      · omega
  refine ⟨hc.1, ?_⟩
  rw [reported_steps_val _ (by omega)]
  omega

/-- Witness of C5: the scenario `domain_size = 0`, `max_steps = 100`. -/
theorem C5_zero_domain_witness :
    (walker_walk 0 100 (fun _ => 1)).calls ≤ 1 ∧
    (reported_steps (walker_walk 0 100 (fun _ => 1))).val = 1 :=
  C5_zero_domain 0 100 (fun _ => 1) (by decide)

/-- Claim C6, amended: for `0 ≤ max_steps ≤ domain_size` with `max_steps < INT_MAX`, the walker
never leaves the domain, runs all `max_steps` iterations and reports `max_steps + 1`. -/
theorem C6_budget_within_domain (d m : CInt) (rnd : Nat → Nat) (hm : 0 ≤ m.val)
    (hmd : m.val ≤ d.val) (hlt : m.val < INT_MAX) :
    (∀ j, j ≤ (walker_walk d m rnd).calls → in_domain d (position_after rnd j)) ∧
    in_domain d (walker_walk d m rnd).position.val ∧
    ((walker_walk d m rnd).calls : Int) = m.val ∧
    (walker_walk d m rnd).steps.val = m.val ∧
    (reported_steps (walker_walk d m rnd)).val = m.val + 1 := by
  unfold INT_MAX at hlt
  obtain ⟨h1, h2, h3⟩ := walker_walk_complete d m rnd hm hmd
  obtain ⟨hp, _, _⟩ := walker_walk_spec d m rnd (by omega)
  refine ⟨h3, ?_, h2, h1, ?_⟩
  · rw [hp]; exact h3 _ (le_refl _)
  · rw [reported_steps_val _ (by omega)]
    omega

/-- Witness of C6: the scenario `domain_size = 1000000`, `max_steps = 5`, reported count 6. -/
theorem C6_budget_within_domain_witness :
    (∀ j, j ≤ (walker_walk 1000000 5 (fun i => i)).calls →
      in_domain 1000000 (position_after (fun i => i) j)) ∧
    in_domain 1000000 (walker_walk 1000000 5 (fun i => i)).position.val ∧
    ((walker_walk 1000000 5 (fun i => i)).calls : Int) = 5 ∧
    (walker_walk 1000000 5 (fun i => i)).steps.val = 5 ∧
    (reported_steps (walker_walk 1000000 5 (fun i => i))).val = 6 :=
  C6_budget_within_domain 1000000 5 (fun i => i) (by decide) (by decide) (by decide)

/-- Claim C6 as stated fails at `max_steps = domain_size = INT_MAX`: the loop runs all
`INT_MAX` iterations, and the reported count `steps + 1` is `-2147483648`, not
`max_steps + 1 = 2147483648`. -/
theorem C6_counterexample :
    0 ≤ (CInt.ofInt 2147483647).val ∧
    (CInt.ofInt 2147483647).val ≤ (CInt.ofInt 2147483647).val ∧
    (walker_walk (CInt.ofInt 2147483647) (CInt.ofInt 2147483647) (fun i => i)).steps.val
      = 2147483647 ∧
    (reported_steps
        (walker_walk (CInt.ofInt 2147483647) (CInt.ofInt 2147483647) (fun i => i))).val
      = -2147483648 ∧
    (reported_steps
        (walker_walk (CInt.ofInt 2147483647) (CInt.ofInt 2147483647) (fun i => i))).val
      ≠ (CInt.ofInt 2147483647).val + 1 := by
  have h := walker_walk_complete (CInt.ofInt 2147483647) (CInt.ofInt 2147483647)
    (fun i => i) (by decide) (le_refl _)
  have hs : (walker_walk (CInt.ofInt 2147483647) (CInt.ofInt 2147483647)
      (fun i => i)).steps.val = 2147483647 := by
    rw [h.1]; decide
  have hr := reported_steps_wrap _ hs
  refine ⟨by decide, le_refl _, hs, hr, ?_⟩
  rw [hr]; decide

/-- Claim C8: the reported count is the number of completed iterations plus 1, and the
iteration that leaves the domain counts: if the first move that puts the position strictly
outside the domain is the `k`-th, with `1 ≤ k ≤ max_steps`, then the walker makes exactly
`k` moves, has completed `k - 1` iterations, ends on that outside position and reports `k`. -/
theorem C8_exit_iteration_counts (d m : CInt) (rnd : Nat → Nat) (k : Nat) (hd : 0 ≤ d.val)
    (hk1 : 1 ≤ k) (hk2 : (k : Int) ≤ m.val)
    (hout : ¬ in_domain d (position_after rnd k))
    (hin : ∀ j, j < k → in_domain d (position_after rnd j)) :
    (walker_walk d m rnd).calls = k ∧
    (walker_walk d m rnd).steps.val = (k : Int) - 1 ∧
    (walker_walk d m rnd).position.val = position_after rnd k ∧
    (reported_steps (walker_walk d m rnd)).val = (walker_walk d m rnd).steps.val + 1 ∧
    (reported_steps (walker_walk d m rnd)).val = k := by
  obtain ⟨h1, h2, h3⟩ := walker_walk_exit d m rnd k hd hk1 hk2 hout hin
  have hmhi := m.hi
  have hr := reported_steps_val (walker_walk d m rnd) (by omega)
  refine ⟨h1, by omega, h3, hr, by omega⟩

/-- Witness of C8: `domain_size = 1`, `max_steps = 5`, all moves `+1`; the second move is the
first one outside the domain and the walker reports 2. -/
theorem C8_exit_iteration_counts_witness :
    (walker_walk 1 5 (fun _ => 1)).calls = 2 ∧
    (walker_walk 1 5 (fun _ => 1)).steps.val = ((2 : Nat) : Int) - 1 ∧
    (walker_walk 1 5 (fun _ => 1)).position.val = position_after (fun _ => 1) 2 ∧
    (reported_steps (walker_walk 1 5 (fun _ => 1))).val
      = (walker_walk 1 5 (fun _ => 1)).steps.val + 1 ∧
    (reported_steps (walker_walk 1 5 (fun _ => 1))).val = ((2 : Nat) : Int) :=
  C8_exit_iteration_counts 1 5 (fun _ => 1) 2 (by decide) (by decide) (by decide) (by decide)
    (by intro j hj; interval_cases j <;> decide)

/-- Claim C10: for every `domain_size ≥ 0` (in particular below `INT_MAX`; at `INT_MAX` the
walker cannot leave the domain), every `max_steps` and every random stream, if
the walker stops by leaving the domain (it leaves the loop with `steps < max_steps` still
true, or with its position outside the domain), then its final position is exactly
`domain_size + 1` or `-(domain_size + 1)`, it has made at least `domain_size + 1` moves, and
the count it reports is the number of moves made, at least `domain_size + 1`. -/
theorem C10_exit_position (d m : CInt) (rnd : Nat → Nat) (hd : 0 ≤ d.val)
    (hleft : (walker_walk d m rnd).steps < m ∨ ¬ in_domain d (walker_walk d m rnd).position.val) :
    ((walker_walk d m rnd).position.val = d.val + 1 ∨
      (walker_walk d m rnd).position.val = -(d.val + 1)) ∧
    d.val + 1 ≤ (walker_walk d m rnd).calls ∧
    (reported_steps (walker_walk d m rnd)).val = (walker_walk d m rnd).calls ∧
    d.val + 1 ≤ (reported_steps (walker_walk d m rnd)).val := by
  obtain ⟨hp, h0, h⟩ := walker_walk_spec d m rnd hd
  have hmhi := m.hi
  rcases h with ⟨a1, a2, a3, a4⟩ | ⟨b1, b2, b3, b4⟩
  · exfalso
    rcases hleft with h | h
    · have h' : (walker_walk d m rnd).steps.val < m.val := h
      omega
    · apply h
      rw [hp]
      exact a4 _ (le_refl _)
  · have hr := reported_steps_val (walker_walk d m rnd) (by omega)
    obtain ⟨c, hc⟩ : ∃ c, (walker_walk d m rnd).calls = c + 1 :=
      ⟨(walker_walk d m rnd).calls - 1, by omega⟩
    rw [hc] at b3 b4 hp b1
    have hprev := b4 c (Nat.lt_succ_self c)
    have hmv := move_of_val rnd c
    have hb := position_after_bound rnd (c + 1)
    rw [hc, hp, hr]
    unfold in_domain at b3 hprev
    simp only [position_after] at b3 hb ⊢
    push_cast at hb b1 ⊢
    omega

/-- Witness of C10: `domain_size = 1`, `max_steps = 5`, all moves `+1`: the walker stops after
its second move, at position 2. -/
theorem C10_exit_position_witness :
    ((walker_walk 1 5 (fun _ => 1)).position.val = (1 : CInt).val + 1 ∨
      (walker_walk 1 5 (fun _ => 1)).position.val = -((1 : CInt).val + 1)) ∧
    (1 : CInt).val + 1 ≤ (walker_walk 1 5 (fun _ => 1)).calls ∧
    (reported_steps (walker_walk 1 5 (fun _ => 1))).val = (walker_walk 1 5 (fun _ => 1)).calls ∧
    (1 : CInt).val + 1 ≤ (reported_steps (walker_walk 1 5 (fun _ => 1))).val :=
  C10_exit_position 1 5 (fun _ => 1) (by decide)
    (Or.inl (by
      have h := walker_walk_exit 1 5 (fun _ => 1) 2 (by decide) (by decide) (by decide)
        (by decide) (by intro j hj; interval_cases j <;> decide)
      show (walker_walk 1 5 (fun _ => 1)).steps.val < (5 : CInt).val
      have h5 : (5 : CInt).val = 5 := by decide
      rw [h5]
      have h2 := h.2.1
      push_cast at h2
      omega))

/-! ## The seed -/

/-- Claim C9: at one and the same clock value, two distinct ranks in `[0, world_size)` give
different arguments to `srand`; the argument is `(t + rank) mod 2^32`. -/
theorem C9_distinct_seeds (t : Int) (world_size r1 r2 : CInt)
    (h1 : 0 ≤ r1.val) (h1w : r1.val < world_size.val)
    (h2 : 0 ≤ r2.val) (h2w : r2.val < world_size.val) (hne : r1 ≠ r2) :
    ((srand_seed t r1 : Nat) : Int) = (t + r1.val) % 4294967296 ∧
    ((srand_seed t r2 : Nat) : Int) = (t + r2.val) % 4294967296 ∧
    srand_seed t r1 ≠ srand_seed t r2 := by
  have hw := world_size.hi
  have hv : r1.val ≠ r2.val := fun e => hne (CInt.ext_val e)
  have e1 : ((srand_seed t r1 : Nat) : Int) = (t + r1.val) % 4294967296 := by
    unfold srand_seed; omega
  have e2 : ((srand_seed t r2 : Nat) : Int) = (t + r2.val) % 4294967296 := by
    unfold srand_seed; omega
  refine ⟨e1, e2, ?_⟩
  intro e
  rw [e] at e1
  omega

/-- Witness of C9: ranks 1 and 2 of 4 at clock value 1700000000. -/
theorem C9_distinct_seeds_witness :
    ((srand_seed 1700000000 1 : Nat) : Int) = (1700000000 + (1 : CInt).val) % 4294967296 ∧
    ((srand_seed 1700000000 2 : Nat) : Int) = (1700000000 + (2 : CInt).val) % 4294967296 ∧
    srand_seed 1700000000 1 ≠ srand_seed 1700000000 2 :=
  C9_distinct_seeds 1700000000 4 1 2 (by decide) (by decide) (by decide) (by decide)
    (by decide)

/-! ## The controller -/

/-- The loop of `controller_process`, entered with `i ≤ num_walkers`, performs one receive
for each remaining value of `i`, taking the messages of the inbox in order. -/
theorem controller_loop_spec (nw : CInt) (inbox : Nat → Msg) :
    ∀ (n : Nat) (i : CInt) (k : Nat), (nw.val - i.val).toNat = n →
      controller_loop nw inbox i k
        = (List.range n).map
            (fun j => Event.recv (inbox (k + j)).payload (inbox (k + j)).source 0) := by
  intro n
  induction n with
  | zero =>
    intro i k hn
    have hnot : ¬ i < nw := by
      rw [CInt.lt_def]; omega
    rw [controller_loop, if_neg hnot]
    rfl
  | succ m ih =>
    intro i k hn
    have hlt : i < nw := by
      rw [CInt.lt_def]; omega
    have hsv := CInt.succ_val i nw hlt
    rw [controller_loop, if_pos hlt, ih (i + 1) (k + 1) (by rw [hsv]; omega)]
    rw [List.range_succ_eq_map, List.map_cons, List.map_map]
    congr 1
    apply List.map_congr_left
    intro j _
    show Event.recv (inbox (k + 1 + j)).payload (inbox (k + 1 + j)).source 0
      = Event.recv (inbox (k + (j + 1))).payload (inbox (k + (j + 1))).source 0
    rw [show k + 1 + j = k + (j + 1) by omega]

theorem countP_isRecv_recvs (inbox : Nat → Msg) (l : List Nat) :
    (l.map (fun j => Event.recv (inbox j).payload (inbox j).source 0)).countP Event.isRecv
      = l.length := by
  induction l with
  | nil => rfl
  | cons a t ih => simp [List.countP_cons, Event.isRecv, ih]

theorem countP_isSend_recvs (inbox : Nat → Msg) (l : List Nat) :
    (l.map (fun j => Event.recv (inbox j).payload (inbox j).source 0)).countP Event.isSend
      = 0 := by
  induction l with
  | nil => rfl
  | cons a t ih => simp [List.countP_cons, Event.isSend, ih]

theorem filter_isStdout_recvs (inbox : Nat → Msg) (l : List Nat) :
    (l.map (fun j => Event.recv (inbox j).payload (inbox j).source 0)).filter Event.isStdout
      = [] := by
  induction l with
  | nil => rfl
  | cons a t ih => simp [List.filter_cons, Event.isStdout, ih]

/-- What `controller_process` does for `world_size ≥ 1`: `world_size - 1` receives, in inbox
order, then its line with the count `world_size - 1`. -/
theorem controller_process_events (g : Globals) (inbox : Nat → Msg)
    (hp : 1 ≤ g.world_size.val) :
    controller_process g inbox
      = (List.range (g.world_size.val - 1).toNat).map
          (fun j => Event.recv (inbox j).payload (inbox j).source 0)
        ++ [Event.stdout ("Controller: All " ++ toString (g.world_size.val - 1)
              ++ " walkers have finished.\n")] := by
  have hhi := g.world_size.hi
  have hnw : (g.world_size - 1).val = g.world_size.val - 1 := by
    rw [CInt.sub_val, CInt.one_val]
    exact wrap32_id _ (by omega) (by omega)
  unfold controller_process
  simp only []
  rw [controller_loop_spec (g.world_size - 1) inbox (g.world_size.val - 1).toNat 0 0
    (by rw [hnw, CInt.zero_val]; simp)]
  unfold controller_line
  rw [hnw]
  simp

/-- The counts of receives and sends of `controller_process` and its standard output, for any
stream of incoming messages. -/
theorem controller_process_counts (g : Globals) (hp : 1 ≤ g.world_size.val) :
    ∀ ib : Nat → Msg,
      (((controller_process g ib).countP Event.isRecv : Nat) : Int) = g.world_size.val - 1 ∧
      (controller_process g ib).countP Event.isSend = 0 ∧
      (controller_process g ib).filter Event.isStdout
        = [Event.stdout ("Controller: All " ++ toString (g.world_size.val - 1)
              ++ " walkers have finished.\n")] := by
  intro ib
  rw [controller_process_events g ib hp]
  refine ⟨?_, ?_, ?_⟩
  · rw [List.countP_append, countP_isRecv_recvs]
    simp [List.countP_cons, Event.isRecv]
    omega
  · rw [List.countP_append, countP_isSend_recvs]
    simp [List.countP_cons, Event.isSend]
  · rw [List.filter_append, filter_isStdout_recvs]
    simp [List.filter_cons, Event.isStdout]

/-- Claim C3: for every `world_size = p ≥ 1` and every stream of incoming messages,
`controller_process` performs exactly `p - 1` receives (the first `p - 1` messages of the
stream, with tag 0), no send, and then prints its line with the count `p - 1`; the number of
receives and the printed line are the same for every other stream of messages. -/
theorem C3_controller_receives (g : Globals) (inbox : Nat → Msg) (hp : 1 ≤ g.world_size.val) :
    controller_process g inbox
      = (List.range (g.world_size.val - 1).toNat).map
          (fun j => Event.recv (inbox j).payload (inbox j).source 0)
        ++ [Event.stdout ("Controller: All " ++ toString (g.world_size.val - 1)
              ++ " walkers have finished.\n")] ∧
    (((controller_process g inbox).countP Event.isRecv : Nat) : Int) = g.world_size.val - 1 ∧
    (controller_process g inbox).countP Event.isSend = 0 ∧
    (controller_process g inbox).filter Event.isStdout
      = [Event.stdout ("Controller: All " ++ toString (g.world_size.val - 1)
              ++ " walkers have finished.\n")] ∧
    ∀ inbox2 : Nat → Msg,
      (controller_process g inbox2).countP Event.isRecv
        = (controller_process g inbox).countP Event.isRecv ∧
      (controller_process g inbox2).filter Event.isStdout
        = (controller_process g inbox).filter Event.isStdout := by
  have key := controller_process_counts g hp
  refine ⟨controller_process_events g inbox hp, (key inbox).1, (key inbox).2.1,
    (key inbox).2.2, ?_⟩
  intro inbox2
  constructor
  · have h1 := (key inbox).1
    have h2 := (key inbox2).1
    omega
  · rw [(key inbox).2.2, (key inbox2).2.2]

/-- Witness of C3: `p = 4`; the three messages arrive from ranks 3, 1, 2 with payloads
7, 1, 6, and the printed count is 3. -/
theorem C3_controller_receives_witness :
    controller_process { domain_size := 10, max_steps := 5, world_rank := 0, world_size := 4 }
        (fun k => if k = 0 then ⟨7, 3⟩ else if k = 1 then ⟨1, 1⟩ else ⟨6, 2⟩)
      = [Event.recv 7 3 0, Event.recv 1 1 0, Event.recv 6 2 0,
         Event.stdout "Controller: All 3 walkers have finished.\n"] :=
  (C3_controller_receives
    { domain_size := 10, max_steps := 5, world_rank := 0, world_size := 4 }
    (fun k => if k = 0 then ⟨7, 3⟩ else if k = 1 then ⟨1, 1⟩ else ⟨6, 2⟩)
    (by decide)).1.trans (by decide)

/-! ## `main` -/

theorem main_wrong_count (env : Env) (argv0 : String) (args : List String)
    (h : args.length ≠ 2) :
    main env argv0 args
      = (1, [Event.mpi_init]
            ++ (if env.world_rank = 0 then [Event.stderr (usage_line argv0)] else [])
            ++ [Event.mpi_finalize]) := by
  unfold main
  simp only []
  rw [if_pos (by omega)]

theorem main_right_count (env : Env) (argv0 : String) (args : List String)
    (h : args.length = 2) :
    main env argv0 args
      = (0, [Event.mpi_init]
            ++ (if env.world_rank = 0 then controller_process (set_globals env args) env.inbox
                else walker_process (set_globals env args) env.now env.libc_rand)
            ++ [Event.mpi_finalize]) := by
  unfold main
  simp only []
  rw [if_neg (by omega)]
  rfl

/-- Claim C4: for every rank and world size, `main` returns 0 when there are exactly two
positional arguments and 1 otherwise; in the latter case the process does nothing between
`MPI_Init` and `MPI_Finalize` except that rank 0 writes the usage line to the error stream:
a line goes to the error stream if and only if the rank is 0, and there is no send, no
receive and no standard output. -/
theorem C4_argument_count (env : Env) (argv0 : String) (args : List String) :
    (args.length = 2 → (main env argv0 args).1 = 0) ∧
    (args.length ≠ 2 →
      (main env argv0 args).1 = 1 ∧
      (main env argv0 args).2
        = [Event.mpi_init]
            ++ (if env.world_rank = 0 then [Event.stderr (usage_line argv0)] else [])
            ++ [Event.mpi_finalize] ∧
      (Event.stderr (usage_line argv0) ∈ (main env argv0 args).2 ↔ env.world_rank = 0) ∧
      ((main env argv0 args).2.countP Event.isStderr ≠ 0 ↔ env.world_rank = 0) ∧
      (main env argv0 args).2.countP Event.isSend = 0 ∧
      (main env argv0 args).2.countP Event.isRecv = 0 ∧
      (main env argv0 args).2.countP Event.isStdout = 0) := by
  constructor
  · intro h
    rw [main_right_count env argv0 args h]
  · intro h
    rw [main_wrong_count env argv0 args h]
    by_cases hr : env.world_rank = 0
    · simp [hr, List.countP_cons, Event.isStderr, Event.isSend, Event.isRecv, Event.isStdout]
    · simp [hr, List.countP_cons, Event.isStderr, Event.isSend, Event.isRecv, Event.isStdout]

/-- Witness of C4: rank 0 of 4, started with two arguments and with one argument. -/
theorem C4_argument_count_witness :
    (main { world_size := 4, world_rank := 0, now := 0, libc_rand := fun _ _ => 0,
            atoi := fun _ => 0, inbox := fun _ => ⟨1, 1⟩ } "./random_walk" ["10", "5"]).1 = 0 ∧
    (main { world_size := 4, world_rank := 0, now := 0, libc_rand := fun _ _ => 0,
            atoi := fun _ => 0, inbox := fun _ => ⟨1, 1⟩ } "./random_walk" ["10"]).1 = 1 ∧
    (main { world_size := 4, world_rank := 0, now := 0, libc_rand := fun _ _ => 0,
            atoi := fun _ => 0, inbox := fun _ => ⟨1, 1⟩ } "./random_walk" ["10"]).2
      = [Event.mpi_init,
         Event.stderr "Usage: mpirun -np <p> ./random_walk <domain_size> <max_steps>\n",
         Event.mpi_finalize] :=
  ⟨(C4_argument_count _ "./random_walk" ["10", "5"]).1 (by decide),
   ((C4_argument_count _ "./random_walk" ["10"]).2 (by decide)).1,
   ((C4_argument_count _ "./random_walk" ["10"]).2 (by decide)).2.1.trans (by decide)⟩

/-! ## A whole launch -/

theorem sum_range_roles (f : Nat → Nat) (n : Nat) (h0 : f 0 = 0)
    (h1 : ∀ r, 0 < r → r < n → f r = 1) : ((List.range n).map f).sum = n - 1 := by
  induction n with
  | zero => rfl
  | succ k ih =>
    rw [List.range_succ, List.map_append, List.sum_append,
      ih (fun r hr hk => h1 r hr (Nat.lt_succ_of_lt hk))]
    rcases Nat.eq_zero_or_pos k with hk | hk
    · subst hk; simp [h0]
    · have := h1 k hk (Nat.lt_succ_self k)
      simp only [List.map_cons, List.map_nil, List.sum_cons, List.sum_nil]
      omega

theorem rank_zero_env (L : Launch) : (L.env 0).world_rank = 0 := rfl

theorem rank_pos_env (L : Launch) (r : Nat) (h0 : 0 < r) (hr : (r : Int) < L.world_size.val) :
    (L.env r).world_rank ≠ 0 := by
  have hhi := L.world_size.hi
  intro e
  have hv : (L.env r).world_rank.val = (0 : CInt).val := by rw [e]
  have h2 : (L.env r).world_rank.val = wrap32 r := rfl
  rw [h2, CInt.zero_val, wrap32_id _ (by omega) (by omega)] at hv
  omega

/-- Claim C7: in a launch with exactly two arguments and `world_size = p ≥ 1`, rank 0 runs
`controller_process`: it performs `p - 1` receives, prints its line and sends nothing; every
rank `r` with `0 < r < p` runs `walker_process`: it prints its line and sends exactly one
message, to rank 0 with tag 0, and the count printed and the payload sent are both the step
count `steps + 1` of its walk for `domain_size = atoi(argv[1])`, `max_steps = atoi(argv[2])`
and the random stream seeded with its clock value and rank; all ranks together send `p - 1`
messages, the number of receives of the controller. -/
theorem C7_roles_and_messages (L : Launch) (argv0 : String) (args : List String)
    (hargs : args.length = 2) (hp : 1 ≤ L.world_size.val) :
    (main (L.env 0) argv0 args).2
      = [Event.mpi_init] ++ controller_process (set_globals (L.env 0) args) L.inbox
          ++ [Event.mpi_finalize] ∧
    (main (L.env 0) argv0 args).2
      = [Event.mpi_init]
          ++ (List.range (L.world_size.val - 1).toNat).map
              (fun j => Event.recv (L.inbox j).payload (L.inbox j).source 0)
          ++ [Event.stdout ("Controller: All " ++ toString (L.world_size.val - 1)
                ++ " walkers have finished.\n"),
              Event.mpi_finalize] ∧
    (main (L.env 0) argv0 args).2.countP Event.isSend = 0 ∧
    (((main (L.env 0) argv0 args).2.countP Event.isRecv : Nat) : Int) = L.world_size.val - 1 ∧
    (∀ r : Nat, 0 < r → (r : Int) < L.world_size.val →
      (main (L.env r) argv0 args).2
        = [Event.mpi_init]
            ++ walker_process (set_globals (L.env r) args) (L.clock r) L.libc_rand
            ++ [Event.mpi_finalize] ∧
      (main (L.env r) argv0 args).2.countP Event.isSend = 1 ∧
      (main (L.env r) argv0 args).2
        = [Event.mpi_init,
           Event.stdout ("Rank " ++ toString (r : Int) ++ ": Walker finished in "
             ++ toString (reported_steps (walker_walk (L.atoi (args.getD 0 ""))
                  (L.atoi (args.getD 1 ""))
                  (L.libc_rand (srand_seed (L.clock r) (CInt.ofInt r))))).val
             ++ " steps.\n"),
           Event.send (reported_steps (walker_walk (L.atoi (args.getD 0 ""))
                  (L.atoi (args.getD 1 ""))
                  (L.libc_rand (srand_seed (L.clock r) (CInt.ofInt r))))) 0 0,
           Event.mpi_finalize]) ∧
    ((total_sends (launch_run L argv0 args) : Nat) : Int) = L.world_size.val - 1 := by
  have hmain0 : (main (L.env 0) argv0 args).2
      = [Event.mpi_init] ++ controller_process (set_globals (L.env 0) args) L.inbox
          ++ [Event.mpi_finalize] := by
    rw [main_right_count _ argv0 args hargs, if_pos (rank_zero_env L)]
    rfl
  have hev0 := controller_process_events (set_globals (L.env 0) args) L.inbox hp
  have hws : (set_globals (L.env 0) args).world_size = L.world_size := rfl
  rw [hws] at hev0
  have hcnt := controller_process_counts (set_globals (L.env 0) args) hp L.inbox
  have hsend0 : (main (L.env 0) argv0 args).2.countP Event.isSend = 0 := by
    rw [hmain0, List.countP_append, List.countP_append, hcnt.2.1]
    simp [List.countP_cons, Event.isSend]
  have hwalk : ∀ r : Nat, 0 < r → (r : Int) < L.world_size.val →
      (main (L.env r) argv0 args).2
        = [Event.mpi_init]
            ++ walker_process (set_globals (L.env r) args) (L.clock r) L.libc_rand
            ++ [Event.mpi_finalize] := by
    intro r h0 hr
    rw [main_right_count _ argv0 args hargs, if_neg (rank_pos_env L r h0 hr)]
    rfl
  have hsendr : ∀ r : Nat, 0 < r → (r : Int) < L.world_size.val →
      (main (L.env r) argv0 args).2.countP Event.isSend = 1 := by
    intro r h0 hr
    rw [hwalk r h0 hr, walker_process_events]
    simp [List.countP_cons, Event.isSend]
  refine ⟨hmain0, ?_, hsend0, ?_, ?_, ?_⟩
  · rw [hmain0, hev0]
    simp
  · rw [hmain0, List.countP_append, List.countP_append]
    have h1 := hcnt.1
    simp only [List.countP_cons, List.countP_nil, Event.isRecv]
    have h2 : ((controller_process (set_globals (L.env 0) args) L.inbox).countP
        Event.isRecv : Int) = L.world_size.val - 1 := h1
    simp
    exact h2
  · intro r h0 hr
    have hhi := L.world_size.hi
    have hrv : (CInt.ofInt (r : Int)).val = (r : Int) :=
      wrap32_id _ (by omega) (by omega)
    refine ⟨hwalk r h0 hr, hsendr r h0 hr, ?_⟩
    rw [hwalk r h0 hr, walker_process_events]
    show [Event.mpi_init] ++
        [Event.stdout (walker_line (CInt.ofInt (r : Int))
            (reported_steps (walker_walk (L.atoi (args.getD 0 "")) (L.atoi (args.getD 1 ""))
              (L.libc_rand (srand_seed (L.clock r) (CInt.ofInt (r : Int))))))),
          Event.send
            (reported_steps (walker_walk (L.atoi (args.getD 0 "")) (L.atoi (args.getD 1 ""))
              (L.libc_rand (srand_seed (L.clock r) (CInt.ofInt (r : Int)))))) 0 0] ++
        [Event.mpi_finalize] = _
    unfold walker_line
    rw [hrv]
    rfl
  · unfold total_sends launch_run
    rw [List.map_map]
    have hsum := sum_range_roles
      (fun r => (main (L.env r) argv0 args).2.countP Event.isSend)
      L.world_size.val.toNat hsend0 (fun r h0 hr => hsendr r h0 (by omega))
    have hfun : ((fun x : Int × List Event => x.2.countP Event.isSend)
        ∘ fun r => main (L.env r) argv0 args)
        = fun r => (main (L.env r) argv0 args).2.countP Event.isSend := rfl
    rw [hfun, hsum]
    omega

/-- The walk of rank 3 in `example_launch` (both arguments read as 2) runs its two iterations
and reports 3. -/
theorem example_launch_report :
    reported_steps (walker_walk 2 2
      (example_launch.libc_rand (srand_seed (example_launch.clock 3) (CInt.ofInt 3)))) = 3 := by
  have hw := walker_walk_complete 2 2
    (example_launch.libc_rand (srand_seed (example_launch.clock 3) (CInt.ofInt 3)))
    (by decide) (by decide)
  have h2 : (2 : CInt).val = 2 := by decide
  have hs := hw.1
  rw [h2] at hs
  apply CInt.ext_val
  rw [reported_steps_val _ (by omega), hs]
  decide

/-- Witness of C7: a launch of four processes with the arguments `10 5`, read by this launch's
`atoi` as 2 and 2: the controller receives three messages and sends none, and rank 3 prints
and sends the step count 3 of its walk. -/
theorem C7_roles_and_messages_witness :
    (main (example_launch.env 0) "./random_walk" ["10", "5"]).2
      = [Event.mpi_init, Event.recv 1 3 0, Event.recv 1 2 0, Event.recv 1 1 0,
         Event.stdout "Controller: All 3 walkers have finished.\n", Event.mpi_finalize] ∧
    (main (example_launch.env 0) "./random_walk" ["10", "5"]).2.countP Event.isSend = 0 ∧
    (((main (example_launch.env 0) "./random_walk" ["10", "5"]).2.countP Event.isRecv : Nat)
      : Int) = 3 ∧
    (main (example_launch.env 3) "./random_walk" ["10", "5"]).2.countP Event.isSend = 1 ∧
    (main (example_launch.env 3) "./random_walk" ["10", "5"]).2
      = [Event.mpi_init, Event.stdout "Rank 3: Walker finished in 3 steps.\n",
         Event.send 3 0 0, Event.mpi_finalize] ∧
    ((total_sends (launch_run example_launch "./random_walk" ["10", "5"]) : Nat) : Int) = 3 :=
  ⟨(C7_roles_and_messages example_launch "./random_walk" ["10", "5"] (by decide)
      (by decide)).2.1.trans (by decide),
   (C7_roles_and_messages example_launch "./random_walk" ["10", "5"] (by decide)
      (by decide)).2.2.1,
   (C7_roles_and_messages example_launch "./random_walk" ["10", "5"] (by decide)
      (by decide)).2.2.2.1,
   ((C7_roles_and_messages example_launch "./random_walk" ["10", "5"] (by decide)
      (by decide)).2.2.2.2.1 3 (by decide) (by decide)).2.1,
   ((C7_roles_and_messages example_launch "./random_walk" ["10", "5"] (by decide)
      (by decide)).2.2.2.2.1 3 (by decide) (by decide)).2.2.trans (by
        show [Event.mpi_init,
          Event.stdout ("Rank " ++ toString ((3 : Nat) : Int) ++ ": Walker finished in "
            ++ toString (reported_steps (walker_walk 2 2
                (example_launch.libc_rand
                  (srand_seed (example_launch.clock 3) (CInt.ofInt 3))))).val
            ++ " steps.\n"),
          Event.send (reported_steps (walker_walk 2 2
                (example_launch.libc_rand
                  (srand_seed (example_launch.clock 3) (CInt.ofInt 3))))) 0 0,
          Event.mpi_finalize] = _
        rw [example_launch_report]
        decide),
   (C7_roles_and_messages example_launch "./random_walk" ["10", "5"] (by decide)
      (by decide)).2.2.2.2.2⟩

end RandomWalk
